import Mathlib

/-!
# Shallow embedding of the hotel recommendation engine

This file embeds the core of `src/services/RecommendationEngine.ts` and
proves the specified properties of its aggregation, filtering, scoring and
ranking pipeline.

Modelling conventions:
* JavaScript numbers are modelled as real numbers; `Math.log` is the natural
  logarithm, `Math.round x = ⌊x + 1/2⌋`, which is exactly Mathlib `round`.
* `Math.random()` draws are passed in explicitly as a parameter `rand` with
  `0 ≤ rand < 1`.
* External collaborators are oracles: the fuse.js fuzzy searches, the
  geocoding HTTP client and the CSV fetch are parameters of the pipeline.
* A raw CSV row is modelled after Papa.parse has run: numeric fields are
  already numbers (absent values parse to 0), and the platform-rating JSON
  field is modelled as the parsed list of platform entries (the JSON repair
  chain ends in this list, or in the empty list on failure).
* The JavaScript `NaN` produced by `0/0` in the insights generator is
  modelled by `Option ℝ` with `none` standing for `NaN`.
-/

namespace HotelRec

/-- Lowercase a string, as `String.prototype.toLowerCase` (ASCII model). -/
def lowerStr (s : String) : String := String.mk (s.data.map Char.toLower)

/-- Whitespace trim on both ends, as `String.prototype.trim`. -/
def trimStr (s : String) : String :=
  String.mk (((s.data.dropWhile Char.isWhitespace).reverse.dropWhile
    Char.isWhitespace).reverse)

/-- Substring test on character lists: does `s` contain `pat` contiguously? -/
def containsSub (s pat : List Char) : Bool :=
  match s with
  | [] => pat.isEmpty
  | _ :: rest => pat.isPrefixOf s || containsSub rest pat

/-- `String.prototype.includes`. -/
def strContains (s pat : String) : Bool := containsSub s.data pat.data

/-- First-occurrence deduplication, as iteration order of a JS `Set`. -/
def dedupFirst : List String → List String → List String
  | _, [] => []
  | seen, x :: xs =>
    if seen.contains x then dedupFirst seen xs
    else x :: dedupFirst (x :: seen) xs

/-- One platform entry of the parsed `reviews_summary` JSON. -/
structure Platform where
  rating : ℝ
  reviews_count : ℝ

/-- A raw dataset row, after CSV parsing and JSON parsing of the
platform-rating field (the fields the engine core reads). -/
structure RawRecord where
  property_name : String
  address : String
  city : String
  country : String
  hotel_facilities : String
  hotel_star_rating : String
  top_positive_review : String
  top_negative_review : String
  price : ℝ
  average_rating : ℝ
  latitude : ℝ
  longitude : ℝ
  platformRatings : List Platform

/-- The canonical aggregated hotel record built by `aggregateHotelData`. -/
structure AggregatedHotel where
  name : String
  address : String
  city : String
  country : String
  averageScore : ℝ
  totalReviews : ℝ
  positiveWordCount : ℝ
  negativeWordCount : ℝ
  tags : List String
  reviews : List String
  confidenceScore : ℤ
  priceRange : ℝ
  coordinates : ℝ × ℝ
  platformRatings : List Platform
  starRating : Option ℕ

/-- The city regex patterns of `extractCityFromAddress`, each as its ordered
list of alternatives (`/New Delhi|Delhi/i` has two). -/
def cityPatterns : List (List String) :=
  [ [ "New Delhi", "Delhi" ], [ "Mumbai" ], [ "Bangalore" ], [ "Chennai" ],
    [ "Kolkata" ], [ "Jaipur" ], [ "Goa" ], [ "Hyderabad" ], [ "Pune" ],
    [ "Agra" ] ]

/-- Try every alternative, in order, as a case-insensitive prefix of `s`;
return the matched slice of `s` (original casing, as `match[0]`). -/
def tryAltsAt (s : List Char) (alts : List (List Char)) : Option (List Char) :=
  alts.findSome? fun pat =>
    if pat.length ≤ s.length ∧
        (s.take pat.length).map Char.toLower = pat.map Char.toLower
    then some (s.take pat.length) else none

/-- Leftmost case-insensitive match of an alternation, as `String.match`
with an `/i` regex of alternatives. -/
def matchPattern (s : List Char) (alts : List (List Char)) : Option (List Char) :=
  match s with
  | [] => none
  | _ :: rest =>
    match tryAltsAt s alts with
    | some m => some m
    | none => matchPattern rest alts

/-- `extractCityFromAddress`: first pattern that matches wins; the JS code
then runs `match[0].replace(/New Delhi/i, "Delhi")`, which rewrites the
matched text exactly when it is (case-insensitively) `New Delhi`; default
fallback is `Delhi`. -/
def extractCityFromAddress (address : String) : String :=
  match cityPatterns.findSome? (fun g => matchPattern address.data (g.map String.data)) with
  | some m =>
    if lowerStr (String.mk m) = "new delhi" then "Delhi" else String.mk m
  | none => "Delhi"

/-- The fixed city coordinate table of `getCoordinatesForCity`; an unknown
city falls back to the Delhi entry. -/
def cityCoords (city : String) : ℝ × ℝ :=
  if city = "Delhi" then (28.6139, 77.2090)
  else if city = "Mumbai" then (19.0760, 72.8777)
  else if city = "Bangalore" then (12.9716, 77.5946)
  else if city = "Chennai" then (13.0827, 80.2707)
  else if city = "Kolkata" then (22.5726, 88.3639)
  else if city = "Jaipur" then (26.9124, 75.7873)
  else if city = "Goa" then (15.2993, 74.1240)
  else if city = "Hyderabad" then (17.3850, 78.4867)
  else if city = "Pune" then (18.5204, 73.8567)
  else if city = "Agra" then (27.1767, 78.0081)
  else (28.6139, 77.2090)

/-- Digits-to-number, as `parseInt` on a digits-only string. -/
def digitsToNat (l : List Char) : ℕ :=
  l.foldl (fun a c => a * 10 + (c.toNat - 48)) 0

/-- `parseInt(s.replace(/[^0-9]/g, "")) || undefined`: strip non-digits,
parse; an empty digit string parses to `NaN` and `0` is falsy, both giving
`undefined`. -/
def parseStarRating (s : String) : Option ℕ :=
  let digits := s.data.filter Char.isDigit
  if digits.isEmpty then none
  else if digitsToNat digits = 0 then none
  else some (digitsToNat digits)

noncomputable section

/-- `computeWeightedAverage`: review-count-weighted mean of the platform
ratings; unweighted mean when the count total is zero (falsy); `0` when
there are no entries. -/
def computeWeightedAverage (pr : List Platform) : ℝ :=
  match pr with
  | [] => 0
  | _ :: _ =>
    let total := pr.foldl (fun acc p => acc + p.rating * p.reviews_count) 0
    let count := pr.foldl (fun acc p => acc + p.reviews_count) 0
    if count = 0 then (pr.foldl (fun a p => a + p.rating) 0) / pr.length
    else total / count

/-- `calculateConfidenceScore`. -/
def calculateConfidenceScore (avgScore totalReviews positiveWords negativeWords : ℝ) : ℤ :=
  let reviewWeight := Real.log (totalReviews + 1) / 10
  let sentimentRatio := positiveWords / (positiveWords + negativeWords + 1)
  let baseScore := avgScore / 10
  min 100 (round ((baseScore * 0.5 + reviewWeight * 0.3 + sentimentRatio * 0.2) * 100))

/-- `estimatePriceRange`; `rand` is the `Math.random()` draw. -/
def estimatePriceRange (tags : List String) (avgScore : ℝ) (address : String)
    (rand : ℝ) : ℝ :=
  let tagArray := lowerStr (String.intercalate " " tags)
  let addressLower := lowerStr address
  if strContains tagArray "luxury" ∨ strContains tagArray "palace" ∨
      strContains tagArray "oberoi" ∨ strContains tagArray "taj" ∨
      strContains addressLower "palace" ∨ avgScore > 9.0 then
    (⌊rand * 3000⌋ : ℝ) + 4000
  else if strContains tagArray "business" ∨ strContains tagArray "spa" ∨
      avgScore > 8.5 then
    (⌊rand * 1000⌋ : ℝ) + 2500
  else if avgScore > 7.5 then
    (⌊rand * 1000⌋ : ℝ) + 1500
  else
    (⌊rand * 500⌋ : ℝ) + 800

/-- `getCoordinatesForRow`: row coordinates when both are truthy (nonzero),
else the city table. -/
def getCoordinatesForRow (row : RawRecord) (city : String) : ℝ × ℝ :=
  if row.latitude ≠ 0 ∧ row.longitude ≠ 0 then (row.latitude, row.longitude)
  else cityCoords city

/-- The review-count total of a row: `Object.values(platformRatings).reduce`. -/
def rowTotalReviews (row : RawRecord) : ℝ :=
  row.platformRatings.foldl (fun s p => s + p.reviews_count) 0

/-- `row.average_rating || this.computeWeightedAverage(platformRatings)`:
a falsy (zero) direct average falls back to the weighted mean. -/
def rowAvgScore (row : RawRecord) : ℝ :=
  if row.average_rating = 0 then computeWeightedAverage row.platformRatings
  else row.average_rating

/-- The tag set of a row: facilities split on the bullet or pipe delimiter,
trimmed, dropped when empty, lowercased, deduplicated in encounter order. -/
def rowTags (row : RawRecord) : List String :=
  if row.hotel_facilities = "" then []
  else dedupFirst []
    ((((row.hotel_facilities.split fun c => c = '•' || c = '|').map
      trimStr).filter (fun t => t ≠ "")).map lowerStr)

/-- The review excerpt list of a row: the positive then the negative
excerpt, each trimmed, pushed only when the raw field is truthy. -/
def rowReviews (row : RawRecord) : List String :=
  (if row.top_positive_review ≠ "" then [trimStr row.top_positive_review] else [])
  ++ (if row.top_negative_review ≠ "" then [trimStr row.top_negative_review] else [])

/-- The per-row body of `aggregateHotelData`, turning one raw record into an
`AggregatedHotel`; `rand` is the draw used by the price estimate. -/
def aggregateRow (row : RawRecord) (rand : ℝ) : AggregatedHotel :=
  let city := if row.city = "" then extractCityFromAddress row.address else row.city
  { name := row.property_name
    address := row.address
    city := city
    country := row.country
    averageScore := rowAvgScore row
    totalReviews := rowTotalReviews row
    positiveWordCount := 1
    negativeWordCount := 0
    tags := (rowTags row).take 10
    reviews := rowReviews row
    confidenceScore := calculateConfidenceScore (rowAvgScore row) (rowTotalReviews row) 1 0
    priceRange :=
      if row.price > 0 then row.price
      else estimatePriceRange (rowTags row) (rowAvgScore row) row.address rand
    coordinates := getCoordinatesForRow row city
    platformRatings := row.platformRatings
    starRating := parseStarRating row.hotel_star_rating }

end

/-- The merge key used when deduplicating the city-filter union: the JS code
builds the string `name + "|" + address`. -/
def hotelKey (h : AggregatedHotel) : String := h.name ++ "|" ++ h.address

/-- First-occurrence deduplication by `hotelKey`, as the stateful
`filter` over the `map` object in `generateRecommendations`. -/
def dedupByKey : List AggregatedHotel → List String → List AggregatedHotel
  | [], _ => []
  | h :: t, seen =>
    if seen.contains (hotelKey h) then dedupByKey t seen
    else h :: dedupByKey t (hotelKey h :: seen)

/-- The city-filter stage of `generateRecommendations`. -/
def cityFilter (hotels : List AggregatedHotel) (city : String) : List AggregatedHotel :=
  if city == "" || city == "all" then hotels
  else
    let cityLower := lowerStr city
    let byExact := hotels.filter fun h => lowerStr h.city == cityLower
    let byAddress := hotels.filter fun h => strContains (lowerStr h.address) cityLower
    let merged := dedupByKey (byExact ++ byAddress) []
    if merged.isEmpty then hotels else merged

/-- First-occurrence deduplication by the pair `(name, address)`. This is
what the specification text asserts; compare `dedupByKey`. -/
def dedupByPair : List AggregatedHotel → List (String × String) → List AggregatedHotel
  | [], _ => []
  | h :: t, seen =>
    if seen.contains (h.name, h.address) then dedupByPair t seen
    else h :: dedupByPair t ((h.name, h.address) :: seen)

/-- Modelled from the spec sentence for the city filter: the union of exact
city matches and address substring matches, deduplicated by the pair
`(name, address)`, with fallback to the whole collection. -/
def specCityFilter (hotels : List AggregatedHotel) (city : String) : List AggregatedHotel :=
  if city == "" || city == "all" then hotels
  else
    let cityLower := lowerStr city
    let byExact := hotels.filter fun h => lowerStr h.city == cityLower
    let byAddress := hotels.filter fun h => strContains (lowerStr h.address) cityLower
    let merged := dedupByPair (byExact ++ byAddress) []
    if merged.isEmpty then hotels else merged

/-- The fixed persona query phrases of `buildSearchQuery`. -/
def personaQueries (persona : String) : String :=
  if persona = "Family" then "family friendly kids children pool playground safe amenities"
  else if persona = "Business" then "business meeting conference wifi executive professional"
  else if persona = "Luxury" then "luxury premium spa fine dining exceptional service"
  else if persona = "Solo" then "safe secure central location convenient transportation"
  else if persona = "Couple" then "romantic intimate spa dining views peaceful quiet"
  else ""

/-- `buildSearchQuery`: persona phrase, a space, the joined preferences,
then a trim. -/
def buildSearchQuery (persona : String) (preferences : List String) : String :=
  trimStr (personaQueries persona ++ " " ++ String.intercalate " " preferences)

/-- The persona bonus keyword table of `getPersonaBonus`; an unknown persona
yields the empty list. -/
def personaBonusKeywords (persona : String) : List String :=
  if persona = "Family" then [ "family", "kids", "children", "pool", "playground" ]
  else if persona = "Business" then [ "business", "meeting", "conference", "executive", "wifi" ]
  else if persona = "Luxury" then [ "luxury", "spa", "fine", "premium", "exceptional" ]
  else if persona = "Solo" then [ "safe", "secure", "central", "convenient", "transport" ]
  else if persona = "Couple" then [ "romantic", "intimate", "peaceful", "quiet", "views" ]
  else []

/-- Number of persona keywords that occur as substrings of the joined
lowercased tags or the joined lowercased reviews of a hotel. -/
def personaKeywordMatches (h : AggregatedHotel) (persona : String) : ℕ :=
  ((personaBonusKeywords persona).filter fun kw =>
    strContains (lowerStr (String.intercalate " " h.tags)) kw ||
    strContains (lowerStr (String.intercalate " " h.reviews)) kw).length

/-- An aggregated hotel carrying the request-scoped `finalScore`, as the
spread `{ ...hotel, finalScore }`. -/
structure ScoredHotel where
  hotel : AggregatedHotel
  finalScore : ℤ

noncomputable section

/-- `getPersonaBonus`: 0.02 accumulated per matching keyword, capped at 0.1. -/
def getPersonaBonus (h : AggregatedHotel) (persona : String) : ℝ :=
  let tags := lowerStr (String.intercalate " " h.tags)
  let reviews := lowerStr (String.intercalate " " h.reviews)
  let bonus := (personaBonusKeywords persona).foldl
    (fun b kw => if strContains tags kw || strContains reviews kw then b + 0.02 else b) 0
  min bonus 0.1

/-- `calculateFinalScore`. -/
def calculateFinalScore (h : AggregatedHotel) (persona : String) (searchScore : ℝ) : ℤ :=
  let score := h.averageScore / 10 * 0.4
    + searchScore * 0.3
    + min 1 (Real.log (h.totalReviews + 1) / 8) * 0.15
    + h.positiveWordCount / (h.positiveWordCount + h.negativeWordCount + 1) * 0.15
    + getPersonaBonus h persona
  round (score * 100)

/-- The map over fuse.js search results in `generateRecommendations`: each
result `(item, score)` is scored with search similarity `1 - score`. -/
def scoreSearchResults (persona : String) (results : List (AggregatedHotel × ℝ)) :
    List ScoredHotel :=
  results.map fun r => ⟨r.1, calculateFinalScore r.1 persona (1 - r.2)⟩

/-- The popularity score of the zero-hit fallback branch. -/
def popularityScore (h : AggregatedHotel) : ℤ :=
  let reviewConfidence := min 1 (Real.log (h.totalReviews + 1) / 8)
  round ((h.averageScore / 10 * 0.7 + reviewConfidence * 0.3) * 100)

/-- Scoring with the popularity fallback: fuzzy results are scored; when
they are empty every candidate is scored by popularity instead. -/
def scoreOrFallback (persona : String) (cands : List AggregatedHotel)
    (results : List (AggregatedHotel × ℝ)) : List ScoredHotel :=
  let scored := scoreSearchResults persona results
  if scored.isEmpty then cands.map fun h => ⟨h, popularityScore h⟩ else scored

/-- The stable descending sort `(a, b) => b.finalScore - a.finalScore`. -/
def sortByFinalScoreDesc (l : List ScoredHotel) : List ScoredHotel :=
  l.insertionSort fun a b => b.finalScore ≤ a.finalScore

/-- Sort descending by final score, take the top 5. -/
def topFive (l : List ScoredHotel) : List ScoredHotel :=
  (sortByFinalScoreDesc l).take 5

/-- `Math.atan2` on real numbers (signed zeroes aside). -/
def atan2 (y x : ℝ) : ℝ :=
  if x > 0 then Real.arctan (y / x)
  else if x < 0 then
    (if y ≥ 0 then Real.arctan (y / x) + Real.pi else Real.arctan (y / x) - Real.pi)
  else if y > 0 then Real.pi / 2
  else if y < 0 then -(Real.pi / 2)
  else 0

/-- `haversineKm`: great-circle distance, Earth radius 6371 km. -/
def haversineKm (lat1 lon1 lat2 lon2 : ℝ) : ℝ :=
  let toRad := fun d : ℝ => d * Real.pi / 180
  let dLat := toRad (lat2 - lat1)
  let dLon := toRad (lon2 - lon1)
  let a := Real.sin (dLat / 2) ^ 2
    + Real.cos (toRad lat1) * Real.cos (toRad lat2) * Real.sin (dLon / 2) ^ 2
  let c := 2 * atan2 (Real.sqrt a) (Real.sqrt (1 - a))
  6371 * c

/-- Distance of a hotel from a geocoded point. -/
def distTo (lat lng : ℝ) (h : AggregatedHotel) : ℝ :=
  haversineKm lat lng h.coordinates.1 h.coordinates.2

/-- The stable ascending distance sort `(a, b) => a.d - b.d` of the geocode
fallback branch. -/
def sortByDistance (lat lng : ℝ) (cands : List AggregatedHotel) : List AggregatedHotel :=
  cands.insertionSort fun a b => distTo lat lng a ≤ distTo lat lng b

/-- The pure core of `geocode`: `none` models a network error or a non-OK
response, `some []` an empty result list; otherwise the first result wins. -/
def geocodeResult (resp : Option (List (ℝ × ℝ))) : Option (ℝ × ℝ) :=
  match resp with
  | none => none
  | some [] => none
  | some (p :: _) => some p

/-- The area-filter stage of `generateRecommendations`: fuzzy area matches
narrow the candidates; otherwise a geocode of `area, city` sorts them by
distance; a failed geocode leaves them unchanged. -/
def areaStage (fuseArea : List AggregatedHotel → String → List AggregatedHotel)
    (geocode : String → Option (ℝ × ℝ))
    (cands : List AggregatedHotel) (area city : String) : List AggregatedHotel :=
  let areaResults := fuseArea cands (trimStr area)
  if areaResults.isEmpty then
    match geocode (area ++ ", " ++ city) with
    | some p => sortByDistance p.1 p.2 cands
    | none => cands
  else areaResults

/-- The optional structured filters of a request. -/
structure ReqOptions where
  priceMin : Option ℝ
  priceMax : Option ℝ
  starRatings : List ℕ
  avgRatingMin : Option ℝ
  avgRatingMax : Option ℝ
  area : Option String
  extraRequirements : Option String

/-- The price, star, rating and area filters applied when options are
supplied. -/
def applyOptionFilters (fuseArea : List AggregatedHotel → String → List AggregatedHotel)
    (geocode : String → Option (ℝ × ℝ))
    (opt : ReqOptions) (cands0 : List AggregatedHotel) (city : String) :
    List AggregatedHotel :=
  let c1 := match opt.priceMin, opt.priceMax with
    | some mn, some mx => cands0.filter fun h => mn ≤ h.priceRange ∧ h.priceRange ≤ mx
    | _, _ => cands0
  let c2 :=
    if opt.starRatings.isEmpty then c1
    else c1.filter fun h => match h.starRating with
      | some s => opt.starRatings.contains s
      | none => false
  let c3 :=
    if opt.avgRatingMin.isSome || opt.avgRatingMax.isSome then
      c2.filter fun h =>
        !(match opt.avgRatingMin with
          | some mn => decide (h.averageScore < mn)
          | none => false) &&
        !(match opt.avgRatingMax with
          | some mx => decide (mx < h.averageScore)
          | none => false)
    else c2
  match opt.area with
  | some a => if trimStr a = "" then c3 else areaStage fuseArea geocode c3 a city
  | none => c3

/-- The insights object; `averageRating` and `cityStatsAvgRating` are
`Option ℝ` with `none` modelling the JS `NaN` arising from `0 / 0`. -/
structure Insights where
  totalAnalyzed : ℕ
  averageRating : Option ℝ
  topFeatures : List String
  cityStatsName : String
  cityStatsHotelCount : ℕ
  cityStatsAvgRating : Option ℝ

/-- `generateInsights` over the filtered candidate set. -/
def generateInsights (hotels : List AggregatedHotel) (city : String) : Insights :=
  let totalAnalyzed := hotels.length
  let avg : Option ℝ :=
    if totalAnalyzed = 0 then none
    else some ((hotels.foldl (fun s h => s + h.averageScore) 0) / totalAnalyzed)
  let rounded := avg.map fun x => (round (x * 10) : ℝ) / 10
  let allTags := hotels.flatMap fun h => h.tags
  let keys := dedupFirst [] allTags
  let counted := keys.map fun t => (t, allTags.count t)
  let sorted := counted.insertionSort fun a b => b.2 ≤ a.2
  { totalAnalyzed := totalAnalyzed
    averageRating := rounded
    topFeatures := (sorted.take 5).map fun p => p.1
    cityStatsName := city
    cityStatsHotelCount := totalAnalyzed
    cityStatsAvgRating := rounded }

/-- The engine instance state: the shared aggregated collection and the
initialization flag. -/
structure EngineState where
  aggregatedHotels : List AggregatedHotel
  isInitialized : Bool

/-- The external collaborators of a request: the loaded raw rows (with
their price-estimate randomness), the two fuse.js searches and the geocode
client. -/
structure Oracles where
  loadedRows : List (RawRecord × ℝ)
  fuseArea : List AggregatedHotel → String → List AggregatedHotel
  fuseSearch : List AggregatedHotel → String → List (AggregatedHotel × ℝ)
  geocode : String → Option (ℝ × ℝ)

/-- `loadHotelData` then `aggregateHotelData`: rows without a property name
are dropped, the rest are aggregated. -/
def initHotels (o : Oracles) : List AggregatedHotel :=
  (o.loadedRows.filter fun p => p.1.property_name ≠ "").map fun p =>
    aggregateRow p.1 p.2

/-- The lazy `initialize` guard. -/
def ensureInit (o : Oracles) (st : EngineState) : EngineState :=
  if st.isInitialized then st
  else { aggregatedHotels := initHotels o, isInitialized := true }

/-- A request result: the ranked hotels and the insights. -/
structure RecommendationResult where
  hotels : List ScoredHotel
  insights : Insights

/-- `generateRecommendations`, with the engine state passed explicitly. -/
def generateRecommendations (o : Oracles) (st : EngineState)
    (persona city : String) (preferences : List String)
    (options : Option ReqOptions) : RecommendationResult × EngineState :=
  let st1 := ensureInit o st
  let cands0 := cityFilter st1.aggregatedHotels city
  let cands := match options with
    | none => cands0
    | some opt => applyOptionFilters o.fuseArea o.geocode opt cands0 city
  let extras := match options with
    | some opt => (match opt.extraRequirements with | some e => [e] | none => [])
    | none => []
  let query := buildSearchQuery persona (preferences ++ extras)
  let results := o.fuseSearch cands query
  let scored := scoreOrFallback persona cands results
  ({ hotels := topFive scored, insights := generateInsights cands city }, st1)

/-- `searchHotelsByCity`, with the engine state passed explicitly. -/
def searchHotelsByCity (o : Oracles) (st : EngineState) (city : String) :
    List AggregatedHotel × EngineState :=
  let st1 := ensureInit o st
  if city == "" || city == "all" then (st1.aggregatedHotels, st1)
  else (st1.aggregatedHotels.filter fun h => lowerStr h.city == lowerStr city, st1)

/-- Iterated requests, threading the engine state. -/
def runRequests (o : Oracles) :
    EngineState → List (String × String × List String × Option ReqOptions) → EngineState
  | st, [] => st
  | st, r :: rs =>
    runRequests o (generateRecommendations o st r.1 r.2.1 r.2.2.1 r.2.2.2).2 rs

end

/-- `getAvailableCities`: distinct cities of the shared collection, sorted;
note the absence of any initialization guard. -/
def getAvailableCities (st : EngineState) : List String × EngineState :=
  ((dedupFirst [] (st.aggregatedHotels.map fun h => h.city)).insertionSort
    (fun a b : String => a ≤ b), st)

/-! ## Helper lemmas -/

/-- A concrete aggregated hotel used by witnesses. -/
def exHotel : AggregatedHotel :=
  { name := "H", address := "A", city := "Delhi", country := "IN"
    averageScore := 8, totalReviews := 0, positiveWordCount := 1
    negativeWordCount := 0, tags := [], reviews := [], confidenceScore := 0
    priceRange := 1, coordinates := (0, 0), platformRatings := []
    starRating := none }

lemma foldl_add_if (p : String → Bool) (l : List String) (x : ℝ) :
    l.foldl (fun b kw => if p kw then b + 0.02 else b) x
      = x + 0.02 * (l.filter p).length := by
  induction l generalizing x with
  | nil => simp
  | cons a t ih =>
    by_cases h : p a = true <;>
      simp only [List.foldl_cons, List.filter_cons, h, if_pos, if_neg,
        Bool.false_eq_true, ite_true, ite_false, List.length_cons] <;>
      rw [ih] <;> push_cast <;> ring

lemma getPersonaBonus_eq (h : AggregatedHotel) (persona : String) :
    getPersonaBonus h persona = min 0.1 (0.02 * (personaKeywordMatches h persona : ℝ)) := by
  simp only [getPersonaBonus, personaKeywordMatches]
  rw [foldl_add_if]
  rw [min_comm]
  norm_num

lemma calculateFinalScore_eq (h : AggregatedHotel) (persona : String) (s : ℝ) :
    calculateFinalScore h persona s
      = round (100 * (0.4 * (h.averageScore / 10) + 0.3 * s
        + 0.15 * min 1 (Real.log (h.totalReviews + 1) / 8)
        + 0.15 * (h.positiveWordCount / (h.positiveWordCount + h.negativeWordCount + 1))
        + min 0.1 (0.02 * (personaKeywordMatches h persona : ℝ)))) := by
  unfold calculateFinalScore
  rw [getPersonaBonus_eq]
  congr 1
  ring

lemma personaBonusKeywords_eq_nil {persona : String}
    (h : persona ∉ [ "Family", "Business", "Luxury", "Solo", "Couple" ]) :
    personaBonusKeywords persona = [] := by
  simp only [List.mem_cons, List.not_mem_nil, not_or, or_false] at h
  obtain ⟨h1, h2, h3, h4, h5⟩ := h
  simp [personaBonusKeywords, h1, h2, h3, h4, h5]

/-! ## C1: the final score of every fuzzy match -/

/-- C1: every fuzzily matched hotel is scored as
`round (100 × (0.4 × averageScore/10 + 0.3 × searchSimilarity +
0.15 × reviewVolumeConfidence + 0.15 × sentimentRatio + personaBonus))`
where `reviewVolumeConfidence = min 1 (log (totalReviews+1) / 8)`,
`sentimentRatio = positive / (positive + negative + 1)`,
`searchSimilarity = 1 - fuseScore`, and the persona bonus is 0.02 per
matching persona keyword capped at 0.1, with an unknown persona getting
bonus 0. -/
theorem finalScore_matches_spec_formula (persona : String)
    (results : List (AggregatedHotel × ℝ)) :
    scoreSearchResults persona results = results.map (fun r =>
      ⟨r.1, round (100 * (0.4 * (r.1.averageScore / 10) + 0.3 * (1 - r.2)
        + 0.15 * min 1 (Real.log (r.1.totalReviews + 1) / 8)
        + 0.15 * (r.1.positiveWordCount /
            (r.1.positiveWordCount + r.1.negativeWordCount + 1))
        + min 0.1 (0.02 * (personaKeywordMatches r.1 persona : ℝ))))⟩)
    ∧ (persona ∉ [ "Family", "Business", "Luxury", "Solo", "Couple" ] →
        ∀ h : AggregatedHotel, getPersonaBonus h persona = 0) := by
  constructor
  · unfold scoreSearchResults
    exact List.map_congr_left fun r _ => by rw [calculateFinalScore_eq]
  · intro hp h
    simp only [getPersonaBonus, personaBonusKeywords_eq_nil hp, List.foldl_nil]
    norm_num

/-- Witness for C1 at a concrete unknown persona and empty result list. -/
theorem finalScore_matches_spec_formula_witness :
    scoreSearchResults "Backpacker" [] = [] ∧
      getPersonaBonus exHotel "Backpacker" = 0 := by
  have t := finalScore_matches_spec_formula "Backpacker" []
  exact ⟨by simpa using t.1, t.2 (by decide) exHotel⟩

/-! ## C2: the averageScore of an aggregated hotel -/

lemma foldl_add_map {α : Type} (f : α → ℝ) (l : List α) (x : ℝ) :
    l.foldl (fun a p => a + f p) x = x + (l.map f).sum := by
  induction l generalizing x with
  | nil => simp
  | cons a t ih => rw [List.foldl_cons, ih, List.map_cons, List.sum_cons]; ring

lemma sum_map_const_real {α : Type} (l : List α) (c : ℝ) :
    (l.map fun _ => c).sum = c * l.length := by
  induction l with
  | nil => simp
  | cons a t ih =>
    rw [List.map_cons, List.sum_cons, ih, List.length_cons]
    push_cast
    ring

lemma computeWeightedAverage_ne_nil (pr : List Platform) (hnil : pr ≠ []) :
    computeWeightedAverage pr =
      if (pr.map fun p => p.reviews_count).sum = 0
        then (pr.map fun p => p.rating).sum / pr.length
        else (pr.map fun p => p.rating * p.reviews_count).sum /
          (pr.map fun p => p.reviews_count).sum := by
  cases pr with
  | nil => exact absurd rfl hnil
  | cons a t =>
    simp only [computeWeightedAverage]
    rw [foldl_add_map (fun p : Platform => p.rating * p.reviews_count),
      foldl_add_map (fun p : Platform => p.reviews_count),
      foldl_add_map (fun p : Platform => p.rating)]
    simp

lemma computeWeightedAverage_bounds (pr : List Platform)
    (h : ∀ p ∈ pr, 0 ≤ p.rating ∧ p.rating ≤ 10 ∧ 0 ≤ p.reviews_count) :
    0 ≤ computeWeightedAverage pr ∧ computeWeightedAverage pr ≤ 10 := by
  by_cases hnil : pr = []
  · subst hnil
    norm_num [computeWeightedAverage]
  · rw [computeWeightedAverage_ne_nil pr hnil]
    have hlen : 0 < (pr.length : ℝ) := by
      have := List.length_pos.mpr hnil
      exact_mod_cast this
    by_cases hS : (pr.map fun p => p.reviews_count).sum = 0
    · rw [if_pos hS]
      constructor
      · apply div_nonneg _ hlen.le
        exact List.sum_nonneg fun x hx => by
          obtain ⟨p, hp, rfl⟩ := List.mem_map.mp hx
          exact (h p hp).1
      · rw [div_le_iff hlen]
        calc (pr.map fun p => p.rating).sum
            ≤ (pr.map fun _ => (10 : ℝ)).sum :=
              List.sum_le_sum fun p hp => (h p hp).2.1
          _ = 10 * pr.length := sum_map_const_real pr 10
    · have hS0 : 0 ≤ (pr.map fun p => p.reviews_count).sum :=
        List.sum_nonneg fun x hx => by
          obtain ⟨p, hp, rfl⟩ := List.mem_map.mp hx
          exact (h p hp).2.2
      have hSpos : 0 < (pr.map fun p => p.reviews_count).sum :=
        lt_of_le_of_ne hS0 (Ne.symm hS)
      rw [if_neg hS]
      constructor
      · apply div_nonneg _ hSpos.le
        exact List.sum_nonneg fun x hx => by
          obtain ⟨p, hp, rfl⟩ := List.mem_map.mp hx
          exact mul_nonneg (h p hp).1 (h p hp).2.2
      · rw [div_le_iff hSpos]
        calc (pr.map fun p => p.rating * p.reviews_count).sum
            ≤ (pr.map fun p => 10 * p.reviews_count).sum :=
              List.sum_le_sum fun p hp =>
                mul_le_mul_of_nonneg_right (h p hp).2.1 (h p hp).2.2
          _ = 10 * (pr.map fun p => p.reviews_count).sum :=
              List.sum_map_mul_left _ _ _

lemma aggregateRow_averageScore (row : RawRecord) (rand : ℝ) :
    (aggregateRow row rand).averageScore =
      if row.average_rating = 0 then computeWeightedAverage row.platformRatings
      else row.average_rating := rfl

lemma aggregateRow_confidenceScore (row : RawRecord) (rand : ℝ) :
    (aggregateRow row rand).confidenceScore =
      calculateConfidenceScore (rowAvgScore row) (rowTotalReviews row) 1 0 := rfl

lemma aggregateRow_priceRange (row : RawRecord) (rand : ℝ) :
    (aggregateRow row rand).priceRange =
      if row.price > 0 then row.price
      else estimatePriceRange (rowTags row) (rowAvgScore row) row.address rand := rfl

/-- C2 (amended): for raw records whose direct average and platform ratings
lie in the 0 to 10 band with nonnegative review counts, the aggregated
averageScore lies in the closed interval from 0 to 10; when the record
supplies no direct average (a falsy 0) it equals the review-count-weighted
mean of the platform ratings, which falls back to the unweighted mean when
all review counts are zero and to 0 when there are no platform ratings. -/
theorem averageScore_spec (row : RawRecord) (rand : ℝ)
    (h1 : 0 ≤ row.average_rating) (h2 : row.average_rating ≤ 10)
    (h3 : ∀ p ∈ row.platformRatings,
      0 ≤ p.rating ∧ p.rating ≤ 10 ∧ 0 ≤ p.reviews_count) :
    (0 ≤ (aggregateRow row rand).averageScore ∧
      (aggregateRow row rand).averageScore ≤ 10)
    ∧ (row.average_rating = 0 →
        (aggregateRow row rand).averageScore =
          computeWeightedAverage row.platformRatings)
    ∧ (row.average_rating ≠ 0 →
        (aggregateRow row rand).averageScore = row.average_rating)
    ∧ (row.platformRatings = [] →
        computeWeightedAverage row.platformRatings = 0)
    ∧ ((row.platformRatings.map fun p => p.reviews_count).sum ≠ 0 →
        computeWeightedAverage row.platformRatings =
          (row.platformRatings.map fun p => p.rating * p.reviews_count).sum /
          (row.platformRatings.map fun p => p.reviews_count).sum)
    ∧ (row.platformRatings ≠ [] →
        (∀ p ∈ row.platformRatings, p.reviews_count = 0) →
        computeWeightedAverage row.platformRatings =
          (row.platformRatings.map fun p => p.rating).sum /
            row.platformRatings.length) := by
  refine ⟨?_, ?_, ?_, ?_, ?_, ?_⟩
  · rw [aggregateRow_averageScore]
    by_cases h0 : row.average_rating = 0
    · simp only [h0, if_true, if_pos]
      exact computeWeightedAverage_bounds _ h3
    · simp only [h0, if_false, if_neg, not_false_iff]
      exact ⟨h1, h2⟩
  · intro h0
    rw [aggregateRow_averageScore, if_pos h0]
  · intro h0
    rw [aggregateRow_averageScore, if_neg h0]
  · intro hnil
    rw [hnil]
    rfl
  · intro hS
    have hnil : row.platformRatings ≠ [] := by
      intro hc
      exact hS (by simp [hc])
    rw [computeWeightedAverage_ne_nil _ hnil, if_neg hS]
  · intro hnil hz
    have hS : (row.platformRatings.map fun p => p.reviews_count).sum = 0 :=
      List.sum_eq_zero fun x hx => by
        obtain ⟨p, hp, rfl⟩ := List.mem_map.mp hx
        exact hz p hp
    rw [computeWeightedAverage_ne_nil _ hnil, if_pos hS]

/-- A raw record with a negative direct average; all other fields benign. -/
def badAvgRow : RawRecord :=
  { property_name := "H", address := "A", city := "Delhi", country := "IN"
    hotel_facilities := "", hotel_star_rating := "", top_positive_review := ""
    top_negative_review := "", price := 1, average_rating := -1
    latitude := 0, longitude := 0, platformRatings := [] }

/-- C2 counterexample: the formula has no clamp, so a raw record carrying a
negative direct average aggregates to a negative averageScore, outside the
interval the claim asserts. -/
theorem averageScore_not_clamped :
    (aggregateRow badAvgRow 0).averageScore < 0 := by
  have h : (aggregateRow badAvgRow 0).averageScore = -1 := by
    rw [aggregateRow_averageScore]
    norm_num [badAvgRow]
  rw [h]
  norm_num

/-- A benign raw record with direct average 8. -/
def goodRow : RawRecord :=
  { property_name := "H", address := "A", city := "Delhi", country := "IN"
    hotel_facilities := "", hotel_star_rating := "", top_positive_review := ""
    top_negative_review := "", price := 1, average_rating := 8
    latitude := 0, longitude := 0, platformRatings := [] }

/-- Witness for C2 at a concrete benign record. -/
theorem averageScore_spec_witness :
    0 ≤ (aggregateRow goodRow 0).averageScore ∧
      (aggregateRow goodRow 0).averageScore ≤ 10 :=
  (averageScore_spec goodRow 0 (by norm_num [goodRow]) (by norm_num [goodRow])
    (by intro p hp; simp [goodRow] at hp)).1

/-! ## C3: confidenceScore and priceRange after aggregation -/

lemma rowAvgScore_nonneg (row : RawRecord)
    (h1 : 0 ≤ row.average_rating) (h2 : row.average_rating ≤ 10)
    (h3 : ∀ p ∈ row.platformRatings,
      0 ≤ p.rating ∧ p.rating ≤ 10 ∧ 0 ≤ p.reviews_count) :
    0 ≤ rowAvgScore row := by
  unfold rowAvgScore
  by_cases h0 : row.average_rating = 0
  · rw [if_pos h0]
    exact (computeWeightedAverage_bounds _ h3).1
  · rw [if_neg h0]
    exact h1

lemma rowTotalReviews_nonneg (row : RawRecord)
    (h3 : ∀ p ∈ row.platformRatings,
      0 ≤ p.rating ∧ p.rating ≤ 10 ∧ 0 ≤ p.reviews_count) :
    0 ≤ rowTotalReviews row := by
  unfold rowTotalReviews
  rw [foldl_add_map (fun p : Platform => p.reviews_count)]
  have := List.sum_nonneg (l := row.platformRatings.map fun p => p.reviews_count)
    (fun x hx => by
      obtain ⟨p, hp, rfl⟩ := List.mem_map.mp hx
      exact (h3 p hp).2.2)
  linarith

lemma calculateConfidenceScore_bounds (avg tr : ℝ) (ha : 0 ≤ avg) (htr : 0 ≤ tr) :
    0 ≤ calculateConfidenceScore avg tr 1 0 ∧
      calculateConfidenceScore avg tr 1 0 ≤ 100 := by
  unfold calculateConfidenceScore
  refine ⟨le_min (by norm_num) ?_, min_le_left _ _⟩
  have hlog : 0 ≤ Real.log (tr + 1) := Real.log_nonneg (by linarith)
  have harg : 0 ≤ (avg / 10 * 0.5 + Real.log (tr + 1) / 10 * 0.3 +
      1 / (1 + 0 + 1) * 0.2) * 100 := by
    have t1 : 0 ≤ avg / 10 * 0.5 := by positivity
    have t2 : 0 ≤ Real.log (tr + 1) / 10 * 0.3 :=
      mul_nonneg (div_nonneg hlog (by norm_num)) (by norm_num)
    nlinarith
  rw [round_eq]
  exact Int.le_floor.mpr (by push_cast; linarith)

lemma floor_bracket (rand c : ℝ) (hc : 0 < c) (h0 : 0 ≤ rand) (h1 : rand < 1) :
    0 ≤ (⌊rand * c⌋ : ℝ) ∧ (⌊rand * c⌋ : ℝ) < c := by
  constructor
  · exact_mod_cast Int.floor_nonneg.mpr (by positivity)
  · calc (⌊rand * c⌋ : ℝ) ≤ rand * c := Int.floor_le _
      _ < 1 * c := by nlinarith
      _ = c := one_mul c

lemma estimatePriceRange_bracket (tags : List String) (avg : ℝ) (address : String)
    (rand : ℝ) (h0 : 0 ≤ rand) (h1 : rand < 1) :
    (4000 ≤ estimatePriceRange tags avg address rand ∧
      estimatePriceRange tags avg address rand < 7000) ∨
    (2500 ≤ estimatePriceRange tags avg address rand ∧
      estimatePriceRange tags avg address rand < 3500) ∨
    (1500 ≤ estimatePriceRange tags avg address rand ∧
      estimatePriceRange tags avg address rand < 2500) ∨
    (800 ≤ estimatePriceRange tags avg address rand ∧
      estimatePriceRange tags avg address rand < 1300) := by
  simp only [estimatePriceRange]
  have b3000 := floor_bracket rand 3000 (by norm_num) h0 h1
  have b1000 := floor_bracket rand 1000 (by norm_num) h0 h1
  have b500 := floor_bracket rand 500 (by norm_num) h0 h1
  split_ifs with hA hB hC
  · exact Or.inl ⟨by linarith [b3000.1], by linarith [b3000.2]⟩
  · exact Or.inr (Or.inl ⟨by linarith [b1000.1], by linarith [b1000.2]⟩)
  · exact Or.inr (Or.inr (Or.inl ⟨by linarith [b1000.1], by linarith [b1000.2]⟩))
  · exact Or.inr (Or.inr (Or.inr ⟨by linarith [b500.1], by linarith [b500.2]⟩))

/-- C3 (amended): for a raw record whose direct average and platform
ratings lie in the 0 to 10 band with nonnegative review counts, and a
random draw in the unit interval, the aggregated confidenceScore is an
integer between 0 and 100, and priceRange is strictly positive: the source
price when positive, otherwise an estimate falling in one of the four
brackets. -/
theorem confidence_and_price_spec (row : RawRecord) (rand : ℝ)
    (hr0 : 0 ≤ rand) (hr1 : rand < 1)
    (h1 : 0 ≤ row.average_rating) (h2 : row.average_rating ≤ 10)
    (h3 : ∀ p ∈ row.platformRatings,
      0 ≤ p.rating ∧ p.rating ≤ 10 ∧ 0 ≤ p.reviews_count) :
    (0 ≤ (aggregateRow row rand).confidenceScore ∧
      (aggregateRow row rand).confidenceScore ≤ 100)
    ∧ 0 < (aggregateRow row rand).priceRange
    ∧ (0 < row.price → (aggregateRow row rand).priceRange = row.price)
    ∧ (¬ 0 < row.price →
        (4000 ≤ (aggregateRow row rand).priceRange ∧
          (aggregateRow row rand).priceRange < 7000) ∨
        (2500 ≤ (aggregateRow row rand).priceRange ∧
          (aggregateRow row rand).priceRange < 3500) ∨
        (1500 ≤ (aggregateRow row rand).priceRange ∧
          (aggregateRow row rand).priceRange < 2500) ∨
        (800 ≤ (aggregateRow row rand).priceRange ∧
          (aggregateRow row rand).priceRange < 1300)) := by
  have havg := rowAvgScore_nonneg row h1 h2 h3
  have htr := rowTotalReviews_nonneg row h3
  have hbr := estimatePriceRange_bracket (rowTags row) (rowAvgScore row)
    row.address rand hr0 hr1
  refine ⟨?_, ?_, ?_, ?_⟩
  · rw [aggregateRow_confidenceScore]
    exact calculateConfidenceScore_bounds _ _ havg htr
  · rw [aggregateRow_priceRange]
    by_cases hp : row.price > 0
    · rw [if_pos hp]
      exact hp
    · rw [if_neg hp]
      rcases hbr with ⟨l, _⟩ | ⟨l, _⟩ | ⟨l, _⟩ | ⟨l, _⟩ <;> linarith
  · intro hp
    rw [aggregateRow_priceRange, if_pos hp]
  · intro hp
    rw [aggregateRow_priceRange, if_neg hp]
    exact hbr

/-- A raw record with a large negative direct average; no platform ratings. -/
def badConfRow : RawRecord :=
  { property_name := "H", address := "A", city := "Delhi", country := "IN"
    hotel_facilities := "", hotel_star_rating := "", top_positive_review := ""
    top_negative_review := "", price := 1, average_rating := -100
    latitude := 0, longitude := 0, platformRatings := [] }

/-- C3 counterexample: the formula is capped above by 100 but has no lower
clamp, so a raw record with direct average -100 aggregates to the
confidenceScore -490, outside the claimed interval. -/
theorem confidenceScore_not_clamped :
    (aggregateRow badConfRow 0).confidenceScore < 0 := by
  have havg : rowAvgScore badConfRow = -100 := by
    norm_num [rowAvgScore, badConfRow]
  have htr : rowTotalReviews badConfRow = 0 := by
    norm_num [rowTotalReviews, badConfRow]
  rw [aggregateRow_confidenceScore, havg, htr]
  simp only [calculateConfidenceScore]
  have harg : (-100 / 10 * 0.5 + Real.log ((0 : ℝ) + 1) / 10 * 0.3 +
      1 / (1 + 0 + 1) * 0.2) * 100 = ((-490 : ℤ) : ℝ) := by
    rw [show ((0 : ℝ) + 1) = 1 by norm_num, Real.log_one]
    norm_num
  rw [harg, round_intCast]
  norm_num

/-- Witness for C3 at a concrete benign record. -/
theorem confidence_and_price_spec_witness :
    (0 ≤ (aggregateRow goodRow 0).confidenceScore ∧
      (aggregateRow goodRow 0).confidenceScore ≤ 100) ∧
      0 < (aggregateRow goodRow 0).priceRange := by
  have t := confidence_and_price_spec goodRow 0 (by norm_num) (by norm_num)
    (by norm_num [goodRow]) (by norm_num [goodRow])
    (by intro p hp; simp [goodRow] at hp)
  exact ⟨t.1, t.2.1⟩

/-! ## C4: the city-filter stage -/

lemma contains_mem {l : List String} {a : String} :
    l.contains a = true ↔ a ∈ l := by
  simp

lemma dedupByKey_subset :
    ∀ (l : List AggregatedHotel) (seen : List String),
      ∀ h ∈ dedupByKey l seen, h ∈ l := by
  intro l
  induction l with
  | nil => intro seen h hh; simp [dedupByKey] at hh
  | cons a t ih =>
    intro seen h hh
    by_cases hs : seen.contains (hotelKey a)
    · rw [dedupByKey, if_pos hs] at hh
      exact List.mem_cons_of_mem a (ih seen h hh)
    · rw [dedupByKey, if_neg hs] at hh
      rcases List.mem_cons.mp hh with he | hmem
      · rw [he]
        exact List.mem_cons_self _ _
      · exact List.mem_cons_of_mem a (ih _ h hmem)

lemma dedupByKey_keys_fresh :
    ∀ (l : List AggregatedHotel) (seen : List String),
      ∀ h ∈ dedupByKey l seen, ¬ seen.contains (hotelKey h) := by
  intro l
  induction l with
  | nil => intro seen h hh; simp [dedupByKey] at hh
  | cons a t ih =>
    intro seen h hh
    by_cases hs : seen.contains (hotelKey a)
    · rw [dedupByKey, if_pos hs] at hh
      exact ih seen h hh
    · rw [dedupByKey, if_neg hs] at hh
      rcases List.mem_cons.mp hh with he | hmem
      · rw [he]
        exact hs
      · intro hc
        have := ih (hotelKey a :: seen) h hmem
        exact this (contains_mem.mpr (List.mem_cons_of_mem _ (contains_mem.mp hc)))

lemma dedupByKey_nodup_keys :
    ∀ (l : List AggregatedHotel) (seen : List String),
      ((dedupByKey l seen).map hotelKey).Nodup := by
  intro l
  induction l with
  | nil => intro seen; simp [dedupByKey]
  | cons a t ih =>
    intro seen
    by_cases hs : seen.contains (hotelKey a)
    · rw [dedupByKey, if_pos hs]
      exact ih seen
    · rw [dedupByKey, if_neg hs]
      rw [List.map_cons, List.nodup_cons]
      refine ⟨?_, ih _⟩
      intro hmem
      obtain ⟨h, hh, hkey⟩ := List.mem_map.mp hmem
      have := dedupByKey_keys_fresh t (hotelKey a :: seen) h hh
      exact this (contains_mem.mpr (by rw [hkey]; exact List.mem_cons_self _ _))

lemma dedupByKey_covers :
    ∀ (l : List AggregatedHotel) (seen : List String), ∀ h ∈ l,
      ¬ seen.contains (hotelKey h) →
      ∃ h2 ∈ dedupByKey l seen, hotelKey h2 = hotelKey h := by
  intro l
  induction l with
  | nil => intro seen h hh; simp at hh
  | cons a t ih =>
    intro seen h hh hfresh
    by_cases hs : seen.contains (hotelKey a)
    · rw [dedupByKey, if_pos hs]
      rcases List.mem_cons.mp hh with he | hmem
      · rw [he] at hfresh
        exact absurd hs hfresh
      · exact ih seen h hmem hfresh
    · rw [dedupByKey, if_neg hs]
      rcases List.mem_cons.mp hh with he | hmem
      · exact ⟨a, List.mem_cons_self a _, by rw [he]⟩
      · by_cases heq : hotelKey h = hotelKey a
        · exact ⟨a, List.mem_cons_self a _, heq.symm⟩
        · obtain ⟨h2, hh2, hk2⟩ := ih (hotelKey a :: seen) h hmem (by
            intro hc
            rcases List.mem_cons.mp (contains_mem.mp hc) with he | hm
            · exact heq he
            · exact hfresh (contains_mem.mpr hm))
          exact ⟨h2, List.mem_cons_of_mem a hh2, hk2⟩

lemma cityFilter_guard_false {city : String} (hne : city ≠ "")
    (hall : city ≠ "all") : (city == "" || city == "all") = false := by
  simp [hne, hall]

/-- C4 (amended): for a non-empty, non-all city, the city-filter stage
computes the union of case-insensitive exact city matches and
case-insensitive address substring matches, keeps the first occurrence of
every merge key `name|address` (so deduplication is by that joined string,
which coincides with the pair `(name, address)` only when names and
addresses avoid the separator), falls back to the whole collection when
the union is empty, and never returns an empty list on a non-empty
collection. -/
theorem cityFilter_spec (hotels : List AggregatedHotel) (city : String)
    (hne : city ≠ "") (hall : city ≠ "all") :
    ((hotels.filter (fun h => lowerStr h.city == lowerStr city) ++
        hotels.filter (fun h => strContains (lowerStr h.address) (lowerStr city))) = [] →
      cityFilter hotels city = hotels)
    ∧ (∀ u, u = hotels.filter (fun h => lowerStr h.city == lowerStr city) ++
        hotels.filter (fun h => strContains (lowerStr h.address) (lowerStr city)) →
      u ≠ [] →
      cityFilter hotels city = dedupByKey u [] ∧
      (∀ h ∈ cityFilter hotels city, h ∈ u) ∧
      ((cityFilter hotels city).map hotelKey).Nodup ∧
      (∀ h ∈ u, ∃ h2 ∈ cityFilter hotels city, hotelKey h2 = hotelKey h))
    ∧ (hotels ≠ [] → cityFilter hotels city ≠ []) := by
  have hguard := cityFilter_guard_false hne hall
  have hfilter : cityFilter hotels city =
      (if (dedupByKey (hotels.filter (fun h => lowerStr h.city == lowerStr city) ++
        hotels.filter (fun h => strContains (lowerStr h.address) (lowerStr city))) []).isEmpty
      then hotels
      else dedupByKey (hotels.filter (fun h => lowerStr h.city == lowerStr city) ++
        hotels.filter (fun h => strContains (lowerStr h.address) (lowerStr city))) []) := by
    rw [cityFilter, hguard]
    rfl
  refine ⟨?_, ?_, ?_⟩
  · intro hu
    rw [hfilter, hu]
    rfl
  · intro u hu hne2
    have hcons : ∃ a t, u = a :: t := by
      cases u with
      | nil => exact absurd rfl hne2
      | cons a t => exact ⟨a, t, rfl⟩
    obtain ⟨a, t, hat⟩ := hcons
    have hned : dedupByKey u [] = a :: dedupByKey t [hotelKey a] := by
      rw [hat, dedupByKey]
      rfl
    have hres : cityFilter hotels city = dedupByKey u [] := by
      rw [hfilter, ← hu, hned]
      rfl
    refine ⟨hres, ?_, ?_, ?_⟩
    · intro h hh
      rw [hres] at hh
      exact dedupByKey_subset u [] h hh
    · rw [hres]
      exact dedupByKey_nodup_keys u []
    · intro h hh
      obtain ⟨h2, hh2, hk⟩ := dedupByKey_covers u [] h hh (by simp)
      exact ⟨h2, by rw [hres]; exact hh2, hk⟩
  · intro hhot
    by_cases hu : (hotels.filter (fun h => lowerStr h.city == lowerStr city) ++
        hotels.filter (fun h => strContains (lowerStr h.address) (lowerStr city))) = []
    · rw [hfilter, hu]
      exact hhot
    · have hcons : ∃ a t, (hotels.filter (fun h => lowerStr h.city == lowerStr city) ++
          hotels.filter (fun h => strContains (lowerStr h.address) (lowerStr city))) = a :: t := by
        cases hc : (hotels.filter (fun h => lowerStr h.city == lowerStr city) ++
            hotels.filter (fun h => strContains (lowerStr h.address) (lowerStr city))) with
        | nil => exact absurd hc hu
        | cons a t => exact ⟨a, t, rfl⟩
      obtain ⟨a, t, hat⟩ := hcons
      rw [hfilter, hat, dedupByKey]
      simp only [List.contains_nil, Bool.false_eq_true, if_neg, if_false, not_false_iff]
      simp

/-- A hotel whose name contains the merge separator. -/
def pipeHotelA : AggregatedHotel :=
  { name := "x|y", address := "z", city := "c", country := ""
    averageScore := 0, totalReviews := 0, positiveWordCount := 1
    negativeWordCount := 0, tags := [], reviews := [], confidenceScore := 0
    priceRange := 1, coordinates := (0, 0), platformRatings := []
    starRating := none }

/-- A distinct hotel whose pair `(name, address)` differs from
`pipeHotelA` but whose joined key `name|address` collides with it. -/
def pipeHotelB : AggregatedHotel :=
  { name := "x", address := "y|z", city := "c", country := ""
    averageScore := 0, totalReviews := 0, positiveWordCount := 1
    negativeWordCount := 0, tags := [], reviews := [], confidenceScore := 0
    priceRange := 1, coordinates := (0, 0), platformRatings := []
    starRating := none }

/-- C4 counterexample: the code deduplicates by the joined string
`name|address`, not by the pair `(name, address)`: two hotels with
distinct pairs but colliding keys are collapsed to one, so the filter does
not yield the pair-deduplicated union the claim describes. -/
theorem cityFilter_dedup_pair_counterexample :
    specCityFilter [pipeHotelA, pipeHotelB] "c" ≠
      cityFilter [pipeHotelA, pipeHotelB] "c" := by
  intro hcontra
  have h1 : specCityFilter [pipeHotelA, pipeHotelB] "c" =
      [pipeHotelA, pipeHotelB] := rfl
  have h2 : cityFilter [pipeHotelA, pipeHotelB] "c" = [pipeHotelA] := rfl
  rw [h1, h2] at hcontra
  have := congrArg List.length hcontra
  simp at this

/-- Witness for C4: a non-empty collection is never filtered to nothing. -/
theorem cityFilter_spec_witness :
    cityFilter [exHotel] "Delhi" ≠ [] :=
  (cityFilter_spec [exHotel] "Delhi" (by decide) (by decide)).2.2
    (by intro hc; simpa using congrArg List.length hc)

/-! ## C5: the popularity fallback -/

lemma topFive_ne_nil (l : List ScoredHotel) (h : l ≠ []) : topFive l ≠ [] := by
  have hlen : 0 < l.length := List.length_pos.mpr h
  have hpos : 0 < (topFive l).length := by
    unfold topFive sortByFinalScoreDesc
    rw [List.length_take, List.length_insertionSort]
    omega
  exact List.length_pos.mp hpos

/-- C5: the popularity fallback triggers exactly when the fuzzy search
returns zero hits; in that case every candidate is scored as
`round (100 × (0.7 × averageScore/10 + 0.3 × reviewVolumeConfidence))`,
and the ranked output is never empty when candidates exist. -/
theorem popularity_fallback_spec (persona : String)
    (cands : List AggregatedHotel) (results : List (AggregatedHotel × ℝ)) :
    (results = [] → scoreOrFallback persona cands results =
      cands.map fun h => ⟨h, round (100 * (0.7 * (h.averageScore / 10)
        + 0.3 * min 1 (Real.log (h.totalReviews + 1) / 8)))⟩)
    ∧ (results ≠ [] →
        scoreOrFallback persona cands results = scoreSearchResults persona results)
    ∧ (cands ≠ [] → topFive (scoreOrFallback persona cands results) ≠ []) := by
  refine ⟨?_, ?_, ?_⟩
  · intro hr
    subst hr
    simp only [scoreOrFallback, scoreSearchResults, List.map_nil,
      List.isEmpty_nil, ite_true]
    exact List.map_congr_left fun h _ => by
      unfold popularityScore
      congr 1
      ring
  · intro hr
    cases results with
    | nil => exact absurd rfl hr
    | cons r t => simp [scoreOrFallback, scoreSearchResults]
  · intro hc
    cases results with
    | nil =>
      apply topFive_ne_nil
      simp only [scoreOrFallback, scoreSearchResults, List.map_nil,
        List.isEmpty_nil, ite_true]
      simpa using hc
    | cons r t =>
      apply topFive_ne_nil
      simp [scoreOrFallback, scoreSearchResults]

/-- Witness for C5: one candidate, zero fuzzy hits, non-empty output. -/
theorem popularity_fallback_spec_witness :
    topFive (scoreOrFallback "Family" [exHotel] []) ≠ [] :=
  (popularity_fallback_spec "Family" [exHotel] []).2.2 (by simp)

/-! ## C6: top-5, descending, stable -/

lemma filter_orderedInsert_of_eq (v : ℤ) (a : ScoredHotel) (ha : a.finalScore = v) :
    ∀ l : List ScoredHotel,
      (List.orderedInsert (fun x y => y.finalScore ≤ x.finalScore) a l).filter
          (fun sh => sh.finalScore == v)
        = a :: l.filter (fun sh => sh.finalScore == v) := by
  intro l
  induction l with
  | nil => simp [List.orderedInsert, ha]
  | cons b t ih =>
    by_cases hr : b.finalScore ≤ a.finalScore
    · rw [List.orderedInsert, if_pos hr]
      simp [ha]
    · rw [List.orderedInsert, if_neg hr]
      have hbv : ¬ b.finalScore = v := by
        intro hb
        exact hr (by rw [hb, ← ha])
      simp [List.filter_cons, hbv, ih]

lemma filter_orderedInsert_of_ne (v : ℤ) (a : ScoredHotel) (ha : ¬ a.finalScore = v) :
    ∀ l : List ScoredHotel,
      (List.orderedInsert (fun x y => y.finalScore ≤ x.finalScore) a l).filter
          (fun sh => sh.finalScore == v)
        = l.filter (fun sh => sh.finalScore == v) := by
  intro l
  induction l with
  | nil => simp [List.orderedInsert, ha]
  | cons b t ih =>
    by_cases hr : b.finalScore ≤ a.finalScore
    · rw [List.orderedInsert, if_pos hr]
      simp [ha]
    · rw [List.orderedInsert, if_neg hr]
      by_cases hbv : b.finalScore = v
      · simp [List.filter_cons, hbv, ih]
      · simp [List.filter_cons, hbv, ih]

lemma sortByFinalScoreDesc_stable (l : List ScoredHotel) (v : ℤ) :
    (sortByFinalScoreDesc l).filter (fun sh => sh.finalScore == v)
      = l.filter (fun sh => sh.finalScore == v) := by
  induction l with
  | nil => rfl
  | cons a t ih =>
    unfold sortByFinalScoreDesc at ih ⊢
    rw [List.insertionSort]
    by_cases ha : a.finalScore = v
    · rw [filter_orderedInsert_of_eq v a ha, ih, List.filter_cons]
      simp [ha]
    · rw [filter_orderedInsert_of_ne v a ha, ih, List.filter_cons]
      simp [ha]

lemma topFive_length_le (l : List ScoredHotel) : (topFive l).length ≤ 5 := by
  unfold topFive
  rw [List.length_take]
  omega

lemma topFive_sorted (l : List ScoredHotel) :
    List.Sorted (fun a b : ScoredHotel => b.finalScore ≤ a.finalScore) (topFive l) := by
  haveI : IsTotal ScoredHotel (fun a b => b.finalScore ≤ a.finalScore) :=
    ⟨fun a b => le_total b.finalScore a.finalScore⟩
  haveI : IsTrans ScoredHotel (fun a b => b.finalScore ≤ a.finalScore) :=
    ⟨fun _ _ _ hab hbc => le_trans hbc hab⟩
  have hs := List.sorted_insertionSort (fun a b : ScoredHotel =>
    b.finalScore ≤ a.finalScore) l
  exact List.Pairwise.sublist (List.take_sublist 5 _) hs

/-- C6: the hotel list returned by generateRecommendations has at most 5
entries, is sorted descending by finalScore, and the sort is stable: the
hotels carrying any given score appear in their original candidate order,
so the output is determined by the scored candidate sequence. -/
theorem ranked_output_spec (o : Oracles) (st : EngineState)
    (persona city : String) (prefs : List String) (options : Option ReqOptions) :
    ((generateRecommendations o st persona city prefs options).1.hotels).length ≤ 5
    ∧ List.Sorted (fun a b : ScoredHotel => b.finalScore ≤ a.finalScore)
        ((generateRecommendations o st persona city prefs options).1.hotels)
    ∧ (∀ (l : List ScoredHotel) (v : ℤ),
        (sortByFinalScoreDesc l).filter (fun sh => sh.finalScore == v) =
          l.filter (fun sh => sh.finalScore == v)) :=
  ⟨topFive_length_le _, topFive_sorted _, sortByFinalScoreDesc_stable⟩

/-! ## C7: the geocode fallback of the area filter -/

/-- C7: when fuzzy area matching finds nothing, a successful geocode of
`area, city` reorders the candidates ascending by haversine distance from
the resolved point without adding or removing any, a failed geocode leaves
them untouched, and the geocode client maps a network error, a non-OK
response and an empty result list all to failure. -/
theorem area_geocode_spec
    (fuseArea : List AggregatedHotel → String → List AggregatedHotel)
    (geocode : String → Option (ℝ × ℝ))
    (cands : List AggregatedHotel) (area city : String)
    (hfuse : fuseArea cands (trimStr area) = []) :
    (∀ lat lng, geocode (area ++ ", " ++ city) = some (lat, lng) →
      (areaStage fuseArea geocode cands area city).Perm cands ∧
      List.Sorted (fun a b => distTo lat lng a ≤ distTo lat lng b)
        (areaStage fuseArea geocode cands area city))
    ∧ (geocode (area ++ ", " ++ city) = none →
        areaStage fuseArea geocode cands area city = cands)
    ∧ geocodeResult none = none
    ∧ geocodeResult (some []) = none
    ∧ (∀ (p : ℝ × ℝ) (ps : List (ℝ × ℝ)), geocodeResult (some (p :: ps)) = some p) := by
  refine ⟨?_, ?_, rfl, rfl, fun p ps => rfl⟩
  · intro lat lng hg
    have hred : areaStage fuseArea geocode cands area city =
        sortByDistance lat lng cands := by
      simp only [areaStage, hfuse, List.isEmpty_nil, ite_true, hg]
    haveI : IsTotal AggregatedHotel
        (fun a b => distTo lat lng a ≤ distTo lat lng b) :=
      ⟨fun a b => le_total _ _⟩
    haveI : IsTrans AggregatedHotel
        (fun a b => distTo lat lng a ≤ distTo lat lng b) :=
      ⟨fun _ _ _ hab hbc => le_trans hab hbc⟩
    constructor
    · rw [hred]
      exact List.perm_insertionSort _ cands
    · rw [hred]
      exact List.sorted_insertionSort _ cands
  · intro hg
    simp only [areaStage, hfuse, List.isEmpty_nil, ite_true, hg]

/-- A fuzzy-area oracle that never matches. -/
def noFuseArea : List AggregatedHotel → String → List AggregatedHotel :=
  fun _ _ => []

/-- A geocode oracle that always fails. -/
def noGeocode : String → Option (ℝ × ℝ) := fun _ => none

/-- Witness for C7: with no fuzzy match and a failed geocode, the
candidates come back unchanged. -/
theorem area_geocode_spec_witness :
    areaStage noFuseArea noGeocode [exHotel] "a" "b" = [exHotel] :=
  (area_geocode_spec noFuseArea noGeocode [exHotel] "a" "b" rfl).2.1 rfl

/-! ## C8: behaviour on an empty aggregated collection -/

lemma cityFilter_nil (city : String) : cityFilter [] city = [] := by
  simp [cityFilter, dedupByKey]

/-- C8 (as the code behaves): when the dataset fails to load and the
aggregated collection is empty, a request still returns without error and
with an empty hotel list, but the insights object is not fully well
formed: its averageRating and cityStatsAvgRating are the JS `NaN`
(modelled `none`), produced by the unguarded division `0 / 0`. -/
theorem empty_collection_insights (o : Oracles) (persona city : String)
    (prefs : List String)
    (hload : o.loadedRows = [])
    (hfuse : ∀ (l : List AggregatedHotel) (q : String)
      (p : AggregatedHotel × ℝ), p ∈ o.fuseSearch l q → p.1 ∈ l) :
    (generateRecommendations o ⟨[], false⟩ persona city prefs none).1.hotels = []
    ∧ (generateRecommendations o ⟨[], false⟩ persona city
        prefs none).1.insights.totalAnalyzed = 0
    ∧ (generateRecommendations o ⟨[], false⟩ persona city
        prefs none).1.insights.topFeatures = []
    ∧ (generateRecommendations o ⟨[], false⟩ persona city
        prefs none).1.insights.averageRating = none
    ∧ (generateRecommendations o ⟨[], false⟩ persona city
        prefs none).1.insights.cityStatsAvgRating = none := by
  have hinit : initHotels o = [] := by simp [initHotels, hload]
  have hstate : ensureInit o ⟨[], false⟩ =
      ({ aggregatedHotels := [], isInitialized := true } : EngineState) := by
    simp [ensureInit, hinit]
  have hresults : ∀ q, o.fuseSearch [] q = [] := fun q =>
    List.eq_nil_iff_forall_not_mem.mpr fun p hp => by
      simpa using hfuse [] q p hp
  refine ⟨?_, ?_, ?_, ?_, ?_⟩ <;>
    simp [generateRecommendations, hstate, cityFilter_nil, hresults,
      scoreOrFallback, scoreSearchResults, topFive, sortByFinalScoreDesc,
      generateInsights, dedupFirst]

/-- A fully inert oracle set: load failure and empty searches. -/
def emptyOracles : Oracles :=
  { loadedRows := [], fuseArea := fun _ _ => []
    fuseSearch := fun _ _ => [], geocode := fun _ => none }

/-- Witness for C8 at concrete inert oracles. -/
theorem empty_collection_insights_witness :
    (generateRecommendations emptyOracles ⟨[], false⟩ "Family" "Delhi"
      [] none).1.hotels = []
    ∧ (generateRecommendations emptyOracles ⟨[], false⟩ "Family" "Delhi"
        [] none).1.insights.averageRating = none := by
  have t := empty_collection_insights emptyOracles "Family" "Delhi" [] rfl
    (fun l q p hp => by simp [emptyOracles] at hp)
  exact ⟨t.1, t.2.2.2.1⟩

/-! ## C9: the shared collection is never mutated -/

lemma generateRecommendations_state (o : Oracles) (st : EngineState)
    (persona city : String) (prefs : List String)
    (options : Option ReqOptions) :
    (generateRecommendations o st persona city prefs options).2 =
      ensureInit o st := rfl

lemma ensureInit_isInitialized (o : Oracles) (st : EngineState) :
    (ensureInit o st).isInitialized = true := by
  unfold ensureInit
  by_cases h : st.isInitialized <;> simp [h]

lemma ensureInit_idem (o : Oracles) (st : EngineState) :
    ensureInit o (ensureInit o st) = ensureInit o st := by
  have h := ensureInit_isInitialized o st
  unfold ensureInit
  by_cases hst : st.isInitialized <;> simp [hst]

/-- C9: generateRecommendations never mutates the shared aggregated
collection: every request returns the engine state produced by (at most
one) initialization, so after any non-zero number of requests the shared
collection is field-for-field the collection built right after
aggregation. -/
theorem shared_collection_never_mutated (o : Oracles) (st : EngineState)
    (reqs : List (String × String × List String × Option ReqOptions))
    (hne : reqs ≠ []) :
    (runRequests o st reqs).aggregatedHotels =
      (ensureInit o st).aggregatedHotels
    ∧ (runRequests o st reqs).isInitialized = true := by
  induction reqs generalizing st with
  | nil => exact absurd rfl hne
  | cons r rs ih =>
    have hstep : runRequests o st (r :: rs) =
        runRequests o (ensureInit o st) rs := by
      rw [runRequests, generateRecommendations_state]
    cases rs with
    | nil =>
      rw [hstep]
      exact ⟨rfl, ensureInit_isInitialized o st⟩
    | cons r2 rs2 =>
      have h2 := ih (ensureInit o st) (by simp)
      rw [hstep]
      exact ⟨h2.1.trans (by rw [ensureInit_idem]), h2.2⟩

/-- Witness for C9: one concrete request leaves the collection exactly as
initialization built it. -/
theorem shared_collection_never_mutated_witness :
    (runRequests emptyOracles ⟨[], false⟩
        [("Family", "Delhi", [], none)]).aggregatedHotels =
      (ensureInit emptyOracles ⟨[], false⟩).aggregatedHotels :=
  (shared_collection_never_mutated emptyOracles ⟨[], false⟩
    [("Family", "Delhi", [], none)] (by simp)).1

/-! ## C10: getAvailableCities does not initialize -/

/-- C10: unlike generateRecommendations and searchHotelsByCity, the city
listing skips lazy initialization: on a fresh engine it returns the empty
list (the distinct sorted cities of the still-empty collection) and leaves
the engine uninitialized, whereas either of the other two calls would have
initialized it. -/
theorem getAvailableCities_no_init (o : Oracles) :
    (getAvailableCities ⟨[], false⟩).1 = []
    ∧ (getAvailableCities ⟨[], false⟩).2 = (⟨[], false⟩ : EngineState)
    ∧ (getAvailableCities ⟨[], false⟩).2.isInitialized = false
    ∧ (∀ city, (searchHotelsByCity o ⟨[], false⟩ city).2.isInitialized = true)
    ∧ (∀ (persona city : String) (prefs : List String)
        (options : Option ReqOptions),
        (generateRecommendations o ⟨[], false⟩ persona city prefs
          options).2.isInitialized = true) := by
  refine ⟨rfl, rfl, rfl, ?_, ?_⟩
  · intro city
    unfold searchHotelsByCity
    by_cases h : (city == "" || city == "all") = true <;>
      simp [h, ensureInit_isInitialized]
  · intro persona city prefs options
    rw [generateRecommendations_state]
    exact ensureInit_isInitialized o _

end HotelRec
